import Mathlib

/-!
# Verification of the Kantarion Geometry library

Shallow embedding of `Geometry/Point.h` and `Geometry/Segment.h`
(namespace `Kantarion::Geometry`).  The library computes with
`Scalar_t = double`.  We embed it at two levels:

* an exact-arithmetic model over `ℝ` (`Point`, `Segment`,
  `Segment.closestDistance`, …): finite IEEE values are idealised as exact
  reals and rounding is not modelled;
* a special-value model (`FP`, `PointFP`, `SegmentFP`, …) whose scalars are
  exact rationals extended with the IEEE special values `+∞`, `-∞` and NaN,
  with IEEE propagation rules for them.  This level settles the claims that
  are about NaN/infinity behaviour (the unguarded `l_F / l_E` division and
  reflexivity of `operator==`).  Signed zeros are not distinguished; the only
  division by zero reachable from finite inputs in this code is `0/0`, whose
  IEEE result is NaN in either sign convention.
-/

namespace Kantarion.Geometry

/-- `sc_Precision` from `Geometry.h` as a rational:
`std::numeric_limits<double>::epsilon() = 2⁻⁵²`. -/
def sc_PrecisionQ : ℚ := 1 / 2 ^ 52

/-! ## The special-value scalar model `FP` -/

/-- A double-precision scalar for the special-value model: an exact rational
(idealised finite value), `+∞`, `-∞`, or NaN. -/
inductive FP where
  | fin (q : ℚ)
  | pinf
  | ninf
  | nan
deriving DecidableEq, Repr

namespace FP

/-- `true` exactly on (idealised) finite doubles. -/
def isFinite : FP → Bool
  | fin _ => true
  | _ => false

/-- IEEE addition (special values; finite values exact). -/
def add : FP → FP → FP
  | nan, _ => nan
  | _, nan => nan
  | fin a, fin b => fin (a + b)
  | fin _, pinf => pinf
  | fin _, ninf => ninf
  | pinf, fin _ => pinf
  | ninf, fin _ => ninf
  | pinf, pinf => pinf
  | ninf, ninf => ninf
  | pinf, ninf => nan
  | ninf, pinf => nan

/-- IEEE subtraction (special values; finite values exact).
`∞ - ∞` is NaN. -/
def sub : FP → FP → FP
  | nan, _ => nan
  | _, nan => nan
  | fin a, fin b => fin (a - b)
  | fin _, pinf => ninf
  | fin _, ninf => pinf
  | pinf, fin _ => pinf
  | ninf, fin _ => ninf
  | pinf, pinf => nan
  | ninf, ninf => nan
  | pinf, ninf => pinf
  | ninf, pinf => ninf

/-- IEEE multiplication (special values; finite values exact).
`0 · ∞` is NaN. -/
def mul : FP → FP → FP
  | nan, _ => nan
  | _, nan => nan
  | fin a, fin b => fin (a * b)
  | fin a, pinf => if a = 0 then nan else if 0 < a then pinf else ninf
  | fin a, ninf => if a = 0 then nan else if 0 < a then ninf else pinf
  | pinf, fin b => if b = 0 then nan else if 0 < b then pinf else ninf
  | ninf, fin b => if b = 0 then nan else if 0 < b then ninf else pinf
  | pinf, pinf => pinf
  | ninf, ninf => pinf
  | pinf, ninf => ninf
  | ninf, pinf => ninf

/-- IEEE division restricted to an unsigned zero: `0/0` is NaN, `a/0` with
`a ≠ 0` overflows to a (sign-of-numerator) infinity, `a/±∞ = 0`.
The only zero divisor reachable from finite inputs in this library is `0/0`. -/
def div : FP → FP → FP
  | nan, _ => nan
  | _, nan => nan
  | fin a, fin b =>
      if b = 0 then (if a = 0 then nan else if 0 < a then pinf else ninf)
      else fin (a / b)
  | fin _, pinf => fin 0
  | fin _, ninf => fin 0
  | pinf, fin b => if 0 ≤ b then pinf else ninf
  | ninf, fin b => if 0 ≤ b then ninf else pinf
  | pinf, pinf => nan
  | pinf, ninf => nan
  | ninf, pinf => nan
  | ninf, ninf => nan

/-- IEEE `<`: any comparison with a NaN operand is `false`. -/
def lt : FP → FP → Bool
  | nan, _ => false
  | _, nan => false
  | fin a, fin b => decide (a < b)
  | fin _, pinf => true
  | fin _, ninf => false
  | pinf, _ => false
  | ninf, ninf => false
  | ninf, _ => true

/-- IEEE `<=`: any comparison with a NaN operand is `false`. -/
def le : FP → FP → Bool
  | nan, _ => false
  | _, nan => false
  | fin a, fin b => decide (a ≤ b)
  | fin _, pinf => true
  | fin _, ninf => false
  | pinf, pinf => true
  | pinf, _ => false
  | ninf, _ => true

/-- `std::fabs` on doubles: `fabs(NaN) = NaN`, `fabs(±∞) = +∞`. -/
def fabs : FP → FP
  | fin a => fin |a|
  | nan => nan
  | _ => pinf

/-- `std::max(a, b)`, which is `(a < b) ? b : a`. -/
def fmax (a b : FP) : FP := if lt a b then b else a

end FP

/-- `sc_Precision` as a special-value scalar. -/
def sc_PrecisionFP : FP := FP.fin sc_PrecisionQ

/-- `Point::nearlyEqual` (Point.h, lines 35-40) over the special-value model:
`fabs(a - b) <= eps * max(fabs(a), fabs(b))`. -/
def nearlyEqualFP (p_ValueA p_ValueB p_Epsilon : FP) : Bool :=
  FP.le (FP.fabs (FP.sub p_ValueA p_ValueB))
    (FP.mul p_Epsilon (FP.fmax (FP.fabs p_ValueA) (FP.fabs p_ValueB)))

/-- The `Point` data of `Point.h` over the special-value scalar model. -/
structure PointFP where
  m_X : FP
  m_Y : FP
  m_Z : FP
deriving DecidableEq, Repr

namespace PointFP

/-- `Point::operator==` (Point.h, lines 202-206) over the special-value model:
conjunction of `nearlyEqual` on the three coordinates, with the default
epsilon `sc_Precision`. -/
def eqOp (p p_Other : PointFP) : Bool :=
  nearlyEqualFP p.m_X p_Other.m_X sc_PrecisionFP
    && nearlyEqualFP p.m_Y p_Other.m_Y sc_PrecisionFP
    && nearlyEqualFP p.m_Z p_Other.m_Z sc_PrecisionFP

/-- `Point::operator-` (vector subtraction), componentwise IEEE subtraction. -/
def sub (p p_Other : PointFP) : PointFP :=
  ⟨FP.sub p.m_X p_Other.m_X, FP.sub p.m_Y p_Other.m_Y, FP.sub p.m_Z p_Other.m_Z⟩

/-- `Point::operator+` (vector addition), componentwise IEEE addition. -/
def add (p p_Other : PointFP) : PointFP :=
  ⟨FP.add p.m_X p_Other.m_X, FP.add p.m_Y p_Other.m_Y, FP.add p.m_Z p_Other.m_Z⟩

/-- `Point::operator*` (scaling by a scalar), componentwise IEEE
multiplication. -/
def smul (p : PointFP) (p_Scalar : FP) : PointFP :=
  ⟨FP.mul p.m_X p_Scalar, FP.mul p.m_Y p_Scalar, FP.mul p.m_Z p_Scalar⟩

/-- `Point::dot`: `m_X * o.m_X + m_Y * o.m_Y + m_Z * o.m_Z` with IEEE
operations (left-associated sum, as in the source expression). -/
def dot (p p_Other : PointFP) : FP :=
  FP.add (FP.add (FP.mul p.m_X p_Other.m_X) (FP.mul p.m_Y p_Other.m_Y))
    (FP.mul p.m_Z p_Other.m_Z)

end PointFP

/-- A `Distance_t` value in the special-value model.  Because `sqrt` of a
rational is in general irrational, distances carry an exact real in the
finite case (`FP` itself keeps rationals so that the rest of the model stays
computable). -/
inductive FPD where
  | fin (x : ℝ)
  | pinf
  | ninf
  | nan

/-- IEEE `std::sqrt`: NaN on NaN or negative input, `+∞` on `+∞`. -/
noncomputable def FP.sqrtD : FP → FPD
  | FP.fin q => if q < 0 then FPD.nan else FPD.fin (Real.sqrt (q : ℝ))
  | FP.pinf => FPD.pinf
  | FP.ninf => FPD.nan
  | FP.nan => FPD.nan

/-- `Point::distance` (Point.h, lines 223-229) over the special-value model:
`l_dX = o.m_X - m_X` etc., then `sqrt(dx*dx + dy*dy + dz*dz)`. -/
noncomputable def PointFP.distance (p p_Other : PointFP) : FPD :=
  FP.sqrtD
    (FP.add
      (FP.add (FP.mul (FP.sub p_Other.m_X p.m_X) (FP.sub p_Other.m_X p.m_X))
        (FP.mul (FP.sub p_Other.m_Y p.m_Y) (FP.sub p_Other.m_Y p.m_Y)))
      (FP.mul (FP.sub p_Other.m_Z p.m_Z) (FP.sub p_Other.m_Z p.m_Z)))

/-- The `Segment` data of `Segment.h` over the special-value model. -/
structure SegmentFP where
  m_Start : PointFP
  m_End : PointFP

/-- `std::clamp(v, lo, hi) = v < lo ? lo : hi < v ? hi : v`, with IEEE
comparisons (so a NaN argument is returned unchanged). -/
def std_clampFP (v lo hi : FP) : FP :=
  if FP.lt v lo then lo else if FP.lt hi v then hi else v

/-- `Segment::closestDistance` (Segment.h, lines 61-101) over the
special-value model, a local-for-local translation of the source body. -/
noncomputable def SegmentFP.closestDistance (p_Segment1 p_Segment2 : SegmentFP) : FPD :=
  let l_D1 := PointFP.sub p_Segment1.m_End p_Segment1.m_Start
  let l_D2 := PointFP.sub p_Segment2.m_End p_Segment2.m_Start
  let l_R := PointFP.sub p_Segment1.m_Start p_Segment2.m_Start
  let l_A := PointFP.dot l_D1 l_D1
  let l_E := PointFP.dot l_D2 l_D2
  let l_F := PointFP.dot l_D2 l_R
  let l_B := PointFP.dot l_D1 l_D2
  let l_C := PointFP.dot l_D1 l_R
  let l_Denominator := FP.sub (FP.mul l_A l_E) (FP.mul l_B l_B)
  let l_ST :=
    if FP.lt sc_PrecisionFP (FP.fabs l_Denominator) then
      (FP.div (FP.sub (FP.mul l_B l_F) (FP.mul l_C l_E)) l_Denominator,
       FP.div (FP.sub (FP.mul l_A l_F) (FP.mul l_B l_C)) l_Denominator)
    else
      (FP.fin 0, FP.div l_F l_E)
  let l_S := std_clampFP l_ST.1 (FP.fin 0) (FP.fin 1)
  let l_T := std_clampFP l_ST.2 (FP.fin 0) (FP.fin 1)
  let l_ClosestPoint1 := PointFP.add p_Segment1.m_Start (PointFP.smul l_D1 l_S)
  let l_ClosestPoint2 := PointFP.add p_Segment2.m_Start (PointFP.smul l_D2 l_T)
  PointFP.distance l_ClosestPoint1 l_ClosestPoint2

/-! ## The exact-real model -/

noncomputable section

/-- `sc_Precision` from `Geometry.h`:
`std::numeric_limits<double>::epsilon() = 2⁻⁵²`, as a real. -/
def sc_Precision : ℝ := 1 / 2 ^ 52

/-- `sc_ParametricL` from `Geometry.h`. -/
def sc_ParametricL : ℝ := 0

/-- `sc_ParametricH` from `Geometry.h`. -/
def sc_ParametricH : ℝ := 1

/-- `Point::nearlyEqual` (Point.h, lines 35-40):
`fabs(a - b) <= eps * max(fabs(a), fabs(b))`. -/
def nearlyEqual (p_ValueA p_ValueB p_Epsilon : ℝ) : Prop :=
  |p_ValueA - p_ValueB| ≤ p_Epsilon * max |p_ValueA| |p_ValueB|

/-- The `Point` data of `Point.h` in the exact-real model. -/
structure Point where
  m_X : ℝ
  m_Y : ℝ
  m_Z : ℝ

namespace Point

/-- The default-constructed `Point()`: all three constructor parameters
default to `Coordinate_t{} = 0`. -/
def mkDefault : Point := Point.mk 0 0 0

/-- `Point::operator==` (Point.h, lines 202-206). -/
def eqOp (p p_Other : Point) : Prop :=
  nearlyEqual p.m_X p_Other.m_X sc_Precision
    ∧ nearlyEqual p.m_Y p_Other.m_Y sc_Precision
    ∧ nearlyEqual p.m_Z p_Other.m_Z sc_Precision

/-- `Point::magnitude` (Point.h, lines 174-177):
`sqrt(m_X*m_X + m_Y*m_Y + m_Z*m_Z)`. -/
def magnitude (p : Point) : ℝ :=
  Real.sqrt (p.m_X * p.m_X + p.m_Y * p.m_Y + p.m_Z * p.m_Z)

/-- `Point::normalize` (Point.h, lines 183-195): divide by the magnitude if
it exceeds `sc_Precision`, otherwise return the zero vector. -/
def normalize (p : Point) : Point :=
  if sc_Precision < p.magnitude then
    Point.mk (p.m_X / p.magnitude) (p.m_Y / p.magnitude) (p.m_Z / p.magnitude)
  else
    Point.mk 0 0 0

/-- `Point::distance` (Point.h, lines 223-229). -/
def distance (p p_Other : Point) : ℝ :=
  Real.sqrt ((p_Other.m_X - p.m_X) * (p_Other.m_X - p.m_X)
    + (p_Other.m_Y - p.m_Y) * (p_Other.m_Y - p.m_Y)
    + (p_Other.m_Z - p.m_Z) * (p_Other.m_Z - p.m_Z))

/-- `Point::operator+` (componentwise addition). -/
def add (p p_Other : Point) : Point :=
  Point.mk (p.m_X + p_Other.m_X) (p.m_Y + p_Other.m_Y) (p.m_Z + p_Other.m_Z)

/-- `Point::operator-` (componentwise subtraction). -/
def sub (p p_Other : Point) : Point :=
  Point.mk (p.m_X - p_Other.m_X) (p.m_Y - p_Other.m_Y) (p.m_Z - p_Other.m_Z)

/-- `Point::operator*` (componentwise scaling by a scalar). -/
def smul (p : Point) (p_Scalar : ℝ) : Point :=
  Point.mk (p.m_X * p_Scalar) (p.m_Y * p_Scalar) (p.m_Z * p_Scalar)

/-- `Point::dot`. -/
def dot (p p_Other : Point) : ℝ :=
  p.m_X * p_Other.m_X + p.m_Y * p_Other.m_Y + p.m_Z * p_Other.m_Z

/-- `Point::cross` (Point.h, lines 276-282). -/
def cross (p p_Other : Point) : Point :=
  Point.mk
    (p.m_Y * p_Other.m_Z - p.m_Z * p_Other.m_Y)
    (p.m_Z * p_Other.m_X - p.m_X * p_Other.m_Z)
    (p.m_X * p_Other.m_Y - p.m_Y * p_Other.m_X)

end Point

instance : Add Point := ⟨Point.add⟩

instance : Sub Point := ⟨Point.sub⟩

instance : HMul Point ℝ Point := ⟨Point.smul⟩

/-- `std::exchange(obj, val)`: returns the old value of `obj` and stores
`val`; we return `(old value, new stored value)`. -/
def std_exchange (obj val : ℝ) : ℝ × ℝ := (obj, val)

/-- `Point`'s move constructor (Point.h, lines 89-94): each member is
initialised with `std::exchange(other.member, Coordinate_t{})`.  The result
is `(the constructed Point, the moved-from Point's final state)`. -/
def Point.moveConstruct (p_Other : Point) : Point × Point :=
  let ex := std_exchange p_Other.m_X 0
  let ey := std_exchange p_Other.m_Y 0
  let ez := std_exchange p_Other.m_Z 0
  (Point.mk ex.1 ey.1 ez.1, Point.mk ex.2 ey.2 ez.2)

/-- `Point`'s move assignment (Point.h, lines 101-109) in the case the claim
is about: assigning from a distinct object, so the `this != &p_Other` guard
passes (the guard compares addresses, which the value model renders as the
two objects being distinct).  The result is
`(the assigned-to Point's final state, the moved-from Point's final state)`. -/
def Point.moveAssign (_self p_Other : Point) : Point × Point :=
  let ex := std_exchange p_Other.m_X 0
  let ey := std_exchange p_Other.m_Y 0
  let ez := std_exchange p_Other.m_Z 0
  (Point.mk ex.1 ey.1 ez.1, Point.mk ex.2 ey.2 ez.2)

/-- The `Segment` data of `Segment.h` in the exact-real model. -/
structure Segment where
  m_Start : Point
  m_End : Point

/-- `std::clamp(v, lo, hi) = v < lo ? lo : hi < v ? hi : v`. -/
def std_clamp (v lo hi : ℝ) : ℝ :=
  if v < lo then lo else if hi < v then hi else v

/-- `Segment::closestDistance` (Segment.h, lines 61-101) in the exact-real
model, a local-for-local translation of the source body
(`fabs(l_Denominator) > sc_Precision` is written
`sc_Precision < |l_Denominator|`; the single if/else that assigns both
`l_S` and `l_T` becomes one `if` producing the pair). -/
def Segment.closestDistance (p_Segment1 p_Segment2 : Segment) : ℝ :=
  let l_D1 := p_Segment1.m_End - p_Segment1.m_Start
  let l_D2 := p_Segment2.m_End - p_Segment2.m_Start
  let l_R := p_Segment1.m_Start - p_Segment2.m_Start
  let l_A := l_D1.dot l_D1
  let l_E := l_D2.dot l_D2
  let l_F := l_D2.dot l_R
  let l_B := l_D1.dot l_D2
  let l_C := l_D1.dot l_R
  let l_Denominator := l_A * l_E - l_B * l_B
  let l_ST :=
    if sc_Precision < |l_Denominator| then
      ((l_B * l_F - l_C * l_E) / l_Denominator,
       (l_A * l_F - l_B * l_C) / l_Denominator)
    else
      ((0 : ℝ), l_F / l_E)
  let l_S := std_clamp l_ST.1 sc_ParametricL sc_ParametricH
  let l_T := std_clamp l_ST.2 sc_ParametricL sc_ParametricH
  let l_ClosestPoint1 := p_Segment1.m_Start + l_D1 * l_S
  let l_ClosestPoint2 := p_Segment2.m_Start + l_D2 * l_T
  l_ClosestPoint1.distance l_ClosestPoint2

/-- The pre-clamp parameter pair `(l_S, l_T)` of `Segment::closestDistance`
(the value of the source's if/else on lines 83-90), named so that the
computation can be reasoned about in stages; `Segment.closestDistance` is
definitionally this followed by clamping and the point distance. -/
def Segment.params (p_Segment1 p_Segment2 : Segment) : ℝ × ℝ :=
  let l_D1 := p_Segment1.m_End - p_Segment1.m_Start
  let l_D2 := p_Segment2.m_End - p_Segment2.m_Start
  let l_R := p_Segment1.m_Start - p_Segment2.m_Start
  let l_A := l_D1.dot l_D1
  let l_E := l_D2.dot l_D2
  let l_F := l_D2.dot l_R
  let l_B := l_D1.dot l_D2
  let l_C := l_D1.dot l_R
  let l_Denominator := l_A * l_E - l_B * l_B
  if sc_Precision < |l_Denominator| then
    ((l_B * l_F - l_C * l_E) / l_Denominator,
     (l_A * l_F - l_B * l_C) / l_Denominator)
  else
    ((0 : ℝ), l_F / l_E)

/-- The denominator `l_A * l_E - l_B * l_B` of `Segment::closestDistance`,
named so that the non-parallel branch condition can be stated. -/
def Segment.denominator (p_Segment1 p_Segment2 : Segment) : ℝ :=
  let l_D1 := p_Segment1.m_End - p_Segment1.m_Start
  let l_D2 := p_Segment2.m_End - p_Segment2.m_Start
  l_D1.dot l_D1 * l_D2.dot l_D2 - l_D1.dot l_D2 * l_D1.dot l_D2

/-- The closest-distance computation as the SPEC's §4.2 words describe it
(this definition follows the spec's sentences, for the refinement claim):
d1 = end1−start1, d2 = end2−start2, r = start1−start2; a = d1·d1, e = d2·d2,
f = d2·r, b = d1·d2, c = d1·r; denominator = a·e − b²; if |denominator|
exceeds the precision threshold then s = (b·f − c·e)/denominator and
t = (a·f − b·c)/denominator, otherwise s = 0 and t = f/e; both are clamped
to the closed interval [0, 1]; the result is the Euclidean distance between
start1 + s·d1 and start2 + t·d2. -/
def closestDistanceSpec (seg1 seg2 : Segment) : ℝ :=
  let d1 := seg1.m_End - seg1.m_Start
  let d2 := seg2.m_End - seg2.m_Start
  let r := seg1.m_Start - seg2.m_Start
  let a := d1.dot d1
  let e := d2.dot d2
  let f := d2.dot r
  let b := d1.dot d2
  let c := d1.dot r
  let denominator := a * e - b * b
  let s0 := if sc_Precision < |denominator| then (b * f - c * e) / denominator else 0
  let t0 := if sc_Precision < |denominator| then (a * f - b * c) / denominator else f / e
  let s := max 0 (min 1 s0)
  let t := max 0 (min 1 t0)
  (seg1.m_Start + d1 * s).distance (seg2.m_Start + d2 * t)

/-! ## The textual deserialization model (`operator>>`) -/

/-- An `std::istream` for the purposes of `operator>>(istream&, Point&)`:
the remaining input, already whitespace-tokenised (`some v` is a token that
parses as a scalar with value `v`, `none` a malformed token), plus the
stream state (`good = true` iff no fail bit is set). -/
structure InputStream where
  tokens : List (Option ℝ)
  good : Bool

/-- One formatted scalar extraction `stream >> var` (C++11 semantics for
arithmetic types): if the stream is already failed the sentry fails and the
variable keeps its current value `cur`; at end of input or on a malformed
token extraction fails, sets the fail bit and stores 0. -/
def readScalar (cur : ℝ) (s : InputStream) : ℝ × InputStream :=
  if s.good then
    match s.tokens with
    | [] => (0, ⟨[], false⟩)
    | Option.some v :: rest => (v, ⟨rest, true⟩)
    | Option.none :: rest => (0, ⟨Option.none :: rest, false⟩)
  else (cur, s)

/-- `operator>>(istream&, Point&)` (Point.h, lines 302-317): three local
scalars value-initialised to 0, chained extraction `stream >> x >> y >> z`,
then the stream is tested — and both the success branch and the failure
branch assign all three locals to the Point's coordinates. -/
def pointExtract (p_Stream : InputStream) (_p_Point : Point) : InputStream × Point :=
  let x := (0 : ℝ)
  let y := (0 : ℝ)
  let z := (0 : ℝ)
  let rx := readScalar x p_Stream
  let ry := readScalar y rx.2
  let rz := readScalar z ry.2
  if rz.2.good then
    (rz.2, Point.mk rx.1 ry.1 rz.1)
  else
    (rz.2, Point.mk rx.1 ry.1 rz.1)

end

/-! ## Helper lemmas -/

/-- `std::clamp` to `[sc_ParametricL, sc_ParametricH]` agrees with clamping
to the closed interval `[0, 1]` written with `max`/`min`. -/
theorem std_clamp_parametric (v : ℝ) :
    std_clamp v sc_ParametricL sc_ParametricH = max 0 (min 1 v) := by
  unfold std_clamp sc_ParametricL sc_ParametricH
  by_cases h1 : v < 0
  · rw [if_pos h1, min_eq_right (by linarith), max_eq_left (by linarith)]
  · rw [if_neg h1]
    by_cases h2 : 1 < v
    · rw [if_pos h2, min_eq_left (by linarith), max_eq_right (by norm_num)]
    · rw [if_neg h2, min_eq_right (by linarith), max_eq_right (by linarith)]

/-- `nearlyEqual` holds between a value and itself for every real (the
exact-real rendering of the finite-coordinate case). -/
theorem nearlyEqual_self (a eps : ℝ) (heps : 0 ≤ eps) : nearlyEqual a a eps := by
  unfold nearlyEqual
  have : |a - a| = 0 := by simp
  rw [this]
  positivity

/-- Unfolds the `Sub Point` instance. -/
theorem Point.sub_def (p q : Point) : p - q = Point.sub p q := rfl

/-- Unfolds the `Add Point` instance. -/
theorem Point.add_def (p q : Point) : p + q = Point.add p q := rfl

/-- Unfolds the scalar-multiplication instance. -/
theorem Point.smul_def (p : Point) (c : ℝ) : p * c = Point.smul p c := rfl

/-- The dot product is commutative. -/
theorem Point.dot_comm (p q : Point) : p.dot q = q.dot p := by
  unfold Point.dot; ring

/-- Dotting with a reversed difference negates the dot product. -/
theorem Point.dot_sub_swap (x a b : Point) : x.dot (a - b) = -(x.dot (b - a)) := by
  show x.dot (Point.sub a b) = -(x.dot (Point.sub b a))
  unfold Point.dot Point.sub
  dsimp only
  ring

/-- `Point::distance` is symmetric in its two arguments. -/
theorem Point.distance_comm (p q : Point) : p.distance q = q.distance p := by
  unfold Point.distance
  congr 1
  ring

/-- `Segment.closestDistance` is the clamped-parameter point distance built
on `Segment.params`. -/
theorem closestDistance_params (s1 s2 : Segment) :
    Segment.closestDistance s1 s2
      = Point.distance
          (s1.m_Start + (s1.m_End - s1.m_Start)
            * std_clamp (Segment.params s1 s2).1 sc_ParametricL sc_ParametricH)
          (s2.m_Start + (s2.m_End - s2.m_Start)
            * std_clamp (Segment.params s1 s2).2 sc_ParametricL sc_ParametricH) := rfl

/-- In the non-parallel branch, swapping the two segments exactly swaps the
two unclamped parameters `(l_S, l_T)`. -/
theorem Segment.params_swap (s1 s2 : Segment)
    (h : sc_Precision < |Segment.denominator s1 s2|) :
    Segment.params s2 s1 = ((Segment.params s1 s2).2, (Segment.params s1 s2).1) := by
  unfold Segment.denominator at h
  dsimp only at h
  unfold Segment.params
  dsimp only
  rw [Point.dot_comm (s2.m_End - s2.m_Start) (s1.m_End - s1.m_Start),
    Point.dot_sub_swap (s1.m_End - s1.m_Start) s2.m_Start s1.m_Start,
    Point.dot_sub_swap (s2.m_End - s2.m_Start) s2.m_Start s1.m_Start]
  revert h
  generalize (s1.m_End - s1.m_Start).dot (s1.m_End - s1.m_Start) = A
  generalize (s2.m_End - s2.m_Start).dot (s2.m_End - s2.m_Start) = E
  generalize (s1.m_End - s1.m_Start).dot (s2.m_End - s2.m_Start) = B
  generalize (s2.m_End - s2.m_Start).dot (s1.m_Start - s2.m_Start) = F
  generalize (s1.m_End - s1.m_Start).dot (s1.m_Start - s2.m_Start) = C
  intro h
  have hD : E * A - B * B = A * E - B * B := by ring
  simp only [hD]
  rw [if_pos h, if_pos h]
  simp only [Prod.mk.injEq]
  constructor <;> ring

/-- Value of `closestDistance` on the collinear disjoint segments
(0,0,0)-(1,0,0) and (2,0,0)-(5,0,0): the parallel branch anchors at the
first segment's start, giving 2. -/
theorem closestDistance_collinear_forward :
    Segment.closestDistance ⟨⟨0, 0, 0⟩, ⟨1, 0, 0⟩⟩ ⟨⟨2, 0, 0⟩, ⟨5, 0, 0⟩⟩ = 2 := by
  unfold Segment.closestDistance
  dsimp only
  simp only [Point.sub_def, Point.add_def, Point.smul_def, Point.sub, Point.add,
    Point.smul, Point.dot, Point.distance, std_clamp, sc_ParametricL, sc_ParametricH]
  norm_num [sc_Precision]
  rw [show (4 : ℝ) = 2 * 2 by norm_num, Real.sqrt_mul_self (by norm_num)]

/-- Value of `closestDistance` on the same two segments passed in the other
order: the anchor is now the second segment's start, giving 1. -/
theorem closestDistance_collinear_swapped :
    Segment.closestDistance ⟨⟨2, 0, 0⟩, ⟨5, 0, 0⟩⟩ ⟨⟨0, 0, 0⟩, ⟨1, 0, 0⟩⟩ = 1 := by
  unfold Segment.closestDistance
  dsimp only
  simp only [Point.sub_def, Point.add_def, Point.smul_def, Point.sub, Point.add,
    Point.smul, Point.dot, Point.distance, std_clamp, sc_ParametricL, sc_ParametricH]
  norm_num [sc_Precision]

/-- Value of `closestDistance` on the C3 test input, the segments
(0,0,0)-(3,3,3) and (3,3,3)-(6,6,6) sharing the endpoint (3,3,3): the
parallel branch clamps `t = -1` to 0 and returns `dist((0,0,0),(3,3,3))`. -/
theorem closestDistance_sharedEndpoint_value :
    Segment.closestDistance ⟨⟨0, 0, 0⟩, ⟨3, 3, 3⟩⟩ ⟨⟨3, 3, 3⟩, ⟨6, 6, 6⟩⟩
      = Real.sqrt 27 := by
  unfold Segment.closestDistance
  dsimp only
  simp only [Point.sub_def, Point.add_def, Point.smul_def, Point.sub, Point.add,
    Point.smul, Point.dot, Point.distance, std_clamp, sc_ParametricL, sc_ParametricH]
  norm_num [sc_Precision]

/-- Value of `closestDistance` on the C4 test input, the parallel offset
segments (0,0,0)-(5,0,0) and (0,3,1)-(5,3,1): the perpendicular offset is
(0,3,1), so the distance is √10. -/
theorem closestDistance_parallelOffset_value :
    Segment.closestDistance ⟨⟨0, 0, 0⟩, ⟨5, 0, 0⟩⟩ ⟨⟨0, 3, 1⟩, ⟨5, 3, 1⟩⟩
      = Real.sqrt 10 := by
  unfold Segment.closestDistance
  dsimp only
  simp only [Point.sub_def, Point.add_def, Point.smul_def, Point.sub, Point.add,
    Point.smul, Point.dot, Point.distance, std_clamp, sc_ParametricL, sc_ParametricH]
  norm_num [sc_Precision]

/-! ## Claim theorems -/

/-- C7: for all Points `a` and `b`, `a.cross(b)` has components
`x = ay·bz − az·by`, `y = az·bx − ax·bz`, `z = ax·by − ay·bx` (right-hand
rule), and equals the componentwise negation of `b.cross(a)`. -/
theorem cross_rhr_anticomm (a b : Point) :
    a.cross b = Point.mk (a.m_Y * b.m_Z - a.m_Z * b.m_Y)
        (a.m_Z * b.m_X - a.m_X * b.m_Z) (a.m_X * b.m_Y - a.m_Y * b.m_X)
      ∧ (a.cross b).m_X = -((b.cross a).m_X)
      ∧ (a.cross b).m_Y = -((b.cross a).m_Y)
      ∧ (a.cross b).m_Z = -((b.cross a).m_Z) := by
  refine ⟨rfl, ?_, ?_, ?_⟩ <;> simp only [Point.cross] <;> ring

/-- C9: move-constructing from a Point, or move-assigning it into a distinct
Point, leaves the moved-from Point with all three coordinates reset to zero,
so that it is both structurally and `operator==`-equal to the
default-constructed Point. -/
theorem move_zeroes_source (p q : Point) :
    (Point.moveConstruct p).2 = Point.mkDefault
      ∧ (Point.moveAssign q p).2 = Point.mkDefault
      ∧ Point.eqOp (Point.moveConstruct p).2 Point.mkDefault := by
  refine ⟨rfl, rfl, ?_, ?_, ?_⟩ <;>
    exact nearlyEqual_self 0 sc_Precision (by norm_num [sc_Precision])

/-- C8: `operator>>` reads three whitespace-separated scalars in order
x, y, z; it always overwrites all three coordinates of the target Point
regardless of whether the read fully succeeds (the result never depends on
the Point's prior value), and on partial or malformed input the Point is
populated with the successfully parsed prefix plus zero defaults for the
missing fields, while the stream is left failed rather than any exception
being signalled. -/
theorem pointExtract_always_overwrites :
    (∀ s : InputStream, ∀ p q : Point, pointExtract s p = pointExtract s q)
      ∧ (∀ a b c : ℝ, ∀ rest : List (Option ℝ), ∀ p : Point,
          pointExtract ⟨Option.some a :: Option.some b :: Option.some c :: rest, true⟩ p
            = (⟨rest, true⟩, Point.mk a b c))
      ∧ (∀ a : ℝ, ∀ p : Point,
          pointExtract ⟨[Option.some a], true⟩ p
            = (⟨[], false⟩, Point.mk a 0 0))
      ∧ (∀ a b : ℝ, ∀ p : Point,
          pointExtract ⟨[Option.some a, Option.none, Option.some b], true⟩ p
            = (⟨[Option.none, Option.some b], false⟩, Point.mk a 0 0)) := by
  refine ⟨fun s p q => rfl, fun a b c rest p => rfl, fun a p => rfl, fun a b p => rfl⟩

/-- C5: `closestDistance` computes exactly what the spec's §4.2 steps say:
with d1 = end1−start1, d2 = end2−start2, r = start1−start2, a = d1·d1,
e = d2·d2, f = d2·r, b = d1·d2, c = d1·r and denominator = a·e − b², when
|denominator| exceeds the precision threshold the parameters are
s = (b·f − c·e)/denominator and t = (a·f − b·c)/denominator, otherwise
s = 0 and t = f/e; both are clamped to [0,1] and the result is the Euclidean
distance between start1 + s·d1 and start2 + t·d2. -/
theorem closestDistance_matches_spec (seg1 seg2 : Segment) :
    Segment.closestDistance seg1 seg2 = closestDistanceSpec seg1 seg2 := by
  unfold Segment.closestDistance closestDistanceSpec
  dsimp only
  by_cases h : sc_Precision
      < |(seg1.m_End - seg1.m_Start).dot (seg1.m_End - seg1.m_Start)
            * (seg2.m_End - seg2.m_Start).dot (seg2.m_End - seg2.m_Start)
          - (seg1.m_End - seg1.m_Start).dot (seg2.m_End - seg2.m_Start)
            * (seg1.m_End - seg1.m_Start).dot (seg2.m_End - seg2.m_Start)| <;>
    simp only [h, if_pos, if_neg, if_true, if_false, std_clamp_parametric]

/-- `nearlyEqual` over the special-value scalars compares a value with
itself exactly when the value is finite: reflexivity fails on NaN (every
comparison with NaN is false) and on `±∞` (`∞ - ∞` is NaN). -/
theorem nearlyEqualFP_self (a : FP) : nearlyEqualFP a a sc_PrecisionFP = a.isFinite := by
  cases a with
  | fin q =>
      simp only [nearlyEqualFP, FP.sub, sub_self, FP.fabs, abs_zero, FP.fmax, FP.lt,
        lt_self_iff_false, decide_eq_true_eq, if_false, FP.mul, FP.le,
        FP.isFinite, sc_PrecisionFP, sc_PrecisionQ]
      positivity
  | pinf => simp [nearlyEqualFP, FP.sub, FP.fabs, FP.le, FP.isFinite]
  | ninf => simp [nearlyEqualFP, FP.sub, FP.fabs, FP.le, FP.isFinite]
  | nan => simp [nearlyEqualFP, FP.sub, FP.fabs, FP.le, FP.isFinite]

/-- Scaling a Point scales its magnitude by the absolute value of the
factor. -/
theorem magnitude_smul (p : Point) (c : ℝ) :
    (Point.smul p c).magnitude = p.magnitude * |c| := by
  simp only [Point.smul, Point.magnitude]
  rw [show p.m_X * c * (p.m_X * c) + p.m_Y * c * (p.m_Y * c) + p.m_Z * c * (p.m_Z * c)
        = (p.m_X * p.m_X + p.m_Y * p.m_Y + p.m_Z * p.m_Z) * (c * c) by ring,
    Real.sqrt_mul
      (add_nonneg (add_nonneg (mul_self_nonneg _) (mul_self_nonneg _))
        (mul_self_nonneg _)),
    Real.sqrt_mul_self_eq_abs]

/-- C6: if a Point's magnitude exceeds the precision threshold then
`normalize` returns the Point scaled by the reciprocal magnitude and the
result has magnitude exactly 1; if the magnitude is at or below the
threshold, `normalize` returns the zero vector. -/
theorem normalize_spec (p : Point) :
    (sc_Precision < p.magnitude →
        p.normalize = p * (1 / p.magnitude) ∧ p.normalize.magnitude = 1)
      ∧ (p.magnitude ≤ sc_Precision → p.normalize = Point.mk 0 0 0) := by
  constructor
  · intro h
    have heps : (0 : ℝ) < sc_Precision := by norm_num [sc_Precision]
    have hm : 0 < p.magnitude := heps.trans h
    have h1 : p.normalize = Point.smul p (1 / p.magnitude) := by
      rw [Point.normalize, if_pos h]
      simp only [Point.smul, Point.mk.injEq]
      exact ⟨(mul_one_div _ _).symm, (mul_one_div _ _).symm, (mul_one_div _ _).symm⟩
    refine ⟨h1, ?_⟩
    rw [h1, magnitude_smul, abs_of_pos (by positivity : (0 : ℝ) < 1 / p.magnitude),
      mul_one_div, div_self hm.ne']
  · intro h
    rw [Point.normalize, if_neg (not_lt.mpr h)]

/-- Witness for C6 at the concrete Points (3,4,0) (magnitude 5, above the
threshold) and (0,0,0) (magnitude 0, at or below the threshold). -/
theorem normalize_spec_witness :
    (sc_Precision < (Point.mk 3 4 0).magnitude
        ∧ (Point.mk 3 4 0).normalize.magnitude = 1)
      ∧ ((Point.mk 0 0 0).magnitude ≤ sc_Precision
        ∧ (Point.mk 0 0 0).normalize = Point.mk 0 0 0) := by
  have h5 : (Point.mk 3 4 0).magnitude = 5 := by
    simp only [Point.magnitude]
    rw [show ((3 : ℝ) * 3 + 4 * 4 + 0 * 0) = 5 * 5 by norm_num,
      Real.sqrt_mul_self (by norm_num)]
  have h0 : (Point.mk 0 0 0).magnitude = 0 := by
    simp only [Point.magnitude]
    rw [show ((0 : ℝ) * 0 + 0 * 0 + 0 * 0) = 0 by norm_num, Real.sqrt_zero]
  have hgt : sc_Precision < (Point.mk 3 4 0).magnitude := by
    rw [h5]; norm_num [sc_Precision]
  have hle : (Point.mk 0 0 0).magnitude ≤ sc_Precision := by
    rw [h0]; norm_num [sc_Precision]
  exact ⟨⟨hgt, ((normalize_spec (Point.mk 3 4 0)).1 hgt).2⟩,
    ⟨hle, (normalize_spec (Point.mk 0 0 0)).2 hle⟩⟩

/-- C10: `operator==` is reflexive exactly on Points whose three coordinates
are all finite; a Point with a NaN or infinite coordinate is not equal to
itself. -/
theorem eqOp_refl_iff_finite (p : PointFP) :
    ((p.m_X.isFinite = true ∧ p.m_Y.isFinite = true ∧ p.m_Z.isFinite = true) →
        p.eqOp p = true)
      ∧ (¬(p.m_X.isFinite = true ∧ p.m_Y.isFinite = true ∧ p.m_Z.isFinite = true) →
        p.eqOp p = false) := by
  obtain ⟨x, y, z⟩ := p
  simp only [PointFP.eqOp, nearlyEqualFP_self]
  constructor
  · rintro ⟨hx, hy, hz⟩
    simp [hx, hy, hz]
  · intro h
    cases hx : x.isFinite <;> cases hy : y.isFinite <;> cases hz : z.isFinite <;>
      simp_all

/-- Witness for C10: a finite Point is `==` to itself, a Point with a NaN
coordinate is not. -/
theorem eqOp_refl_iff_finite_witness :
    (((FP.fin 1).isFinite = true ∧ (FP.fin 2).isFinite = true
        ∧ (FP.fin 3).isFinite = true)
      ∧ PointFP.eqOp ⟨FP.fin 1, FP.fin 2, FP.fin 3⟩ ⟨FP.fin 1, FP.fin 2, FP.fin 3⟩
          = true)
      ∧ (¬((FP.nan).isFinite = true ∧ (FP.fin 0).isFinite = true
        ∧ (FP.fin 0).isFinite = true)
      ∧ PointFP.eqOp ⟨FP.nan, FP.fin 0, FP.fin 0⟩ ⟨FP.nan, FP.fin 0, FP.fin 0⟩
          = false) :=
  ⟨⟨⟨rfl, rfl, rfl⟩,
      (eqOp_refl_iff_finite ⟨FP.fin 1, FP.fin 2, FP.fin 3⟩).1 ⟨rfl, rfl, rfl⟩⟩,
    ⟨by simp [FP.isFinite],
      (eqOp_refl_iff_finite ⟨FP.nan, FP.fin 0, FP.fin 0⟩).2 (by simp [FP.isFinite])⟩⟩

/-- C1 counterexample: `closestDistance` is NOT symmetric under swapping the
argument order.  On the collinear disjoint segments (0,0,0)-(1,0,0) and
(2,0,0)-(5,0,0) (parallel branch), the two orders return 2 and 1, which are
not nearly equal under the library's own `nearlyEqual` tolerance. -/
theorem closestDistance_swap_counterexample :
    Segment.closestDistance ⟨⟨0, 0, 0⟩, ⟨1, 0, 0⟩⟩ ⟨⟨2, 0, 0⟩, ⟨5, 0, 0⟩⟩ = 2
      ∧ Segment.closestDistance ⟨⟨2, 0, 0⟩, ⟨5, 0, 0⟩⟩ ⟨⟨0, 0, 0⟩, ⟨1, 0, 0⟩⟩ = 1
      ∧ ¬ nearlyEqual
          (Segment.closestDistance ⟨⟨0, 0, 0⟩, ⟨1, 0, 0⟩⟩ ⟨⟨2, 0, 0⟩, ⟨5, 0, 0⟩⟩)
          (Segment.closestDistance ⟨⟨2, 0, 0⟩, ⟨5, 0, 0⟩⟩ ⟨⟨0, 0, 0⟩, ⟨1, 0, 0⟩⟩)
          sc_Precision := by
  refine ⟨closestDistance_collinear_forward, closestDistance_collinear_swapped, ?_⟩
  rw [closestDistance_collinear_forward, closestDistance_collinear_swapped]
  unfold nearlyEqual
  norm_num [sc_Precision, abs_of_nonneg]

/-- C1 amended: whenever the non-parallel branch is taken, i.e. the
denominator `a·e − b²` exceeds the precision threshold in absolute value,
`closestDistance` is exactly symmetric under swapping the two segments. -/
theorem closestDistance_swap_symm (s1 s2 : Segment)
    (h : sc_Precision < |Segment.denominator s1 s2|) :
    Segment.closestDistance s1 s2 = Segment.closestDistance s2 s1 := by
  rw [closestDistance_params s1 s2, closestDistance_params s2 s1,
    Segment.params_swap s1 s2 h]
  exact Point.distance_comm _ _

/-- Witness for the amended C1 at the non-parallel segments
(0,0,0)-(1,0,0) and (0,0,1)-(0,1,1), whose denominator is 1. -/
theorem closestDistance_swap_symm_witness :
    sc_Precision
        < |Segment.denominator ⟨⟨0, 0, 0⟩, ⟨1, 0, 0⟩⟩ ⟨⟨0, 0, 1⟩, ⟨0, 1, 1⟩⟩|
      ∧ Segment.closestDistance ⟨⟨0, 0, 0⟩, ⟨1, 0, 0⟩⟩ ⟨⟨0, 0, 1⟩, ⟨0, 1, 1⟩⟩
        = Segment.closestDistance ⟨⟨0, 0, 1⟩, ⟨0, 1, 1⟩⟩ ⟨⟨0, 0, 0⟩, ⟨1, 0, 0⟩⟩ := by
  have h : sc_Precision
      < |Segment.denominator ⟨⟨0, 0, 0⟩, ⟨1, 0, 0⟩⟩ ⟨⟨0, 0, 1⟩, ⟨0, 1, 1⟩⟩| := by
    unfold Segment.denominator
    dsimp only
    simp only [Point.sub_def, Point.sub, Point.dot]
    norm_num [sc_Precision]
  exact ⟨h, closestDistance_swap_symm _ _ h⟩

/-- C3: on the repo's own `SharedEndpoint` test input — the segments
(0,0,0)-(3,3,3) and (3,3,3)-(6,6,6), which share the endpoint (3,3,3) —
`closestDistance` returns √27 ≈ 5.196, not the 0 that the claim (and the
repo's test `EXPECT_DOUBLE_EQ(…, 0.0)`) requires. -/
theorem closestDistance_sharedEndpoint_not_zero :
    Segment.closestDistance ⟨⟨0, 0, 0⟩, ⟨3, 3, 3⟩⟩ ⟨⟨3, 3, 3⟩, ⟨6, 6, 6⟩⟩
        = Real.sqrt 27
      ∧ Segment.closestDistance ⟨⟨0, 0, 0⟩, ⟨3, 3, 3⟩⟩ ⟨⟨3, 3, 3⟩, ⟨6, 6, 6⟩⟩ ≠ 0 := by
  refine ⟨closestDistance_sharedEndpoint_value, ?_⟩
  rw [closestDistance_sharedEndpoint_value]
  exact (Real.sqrt_pos.mpr (by norm_num)).ne'

/-- C4 counterexample: on the segments (0,0,0)-(5,0,0) and (0,3,1)-(5,3,1)
the returned value is at least 3, so it is not approximately 1.0 — not under
the library's `nearlyEqual` with `sc_Precision`, and not under any tolerance
below 2. -/
theorem closestDistance_parallelOffset_not_one :
    3 ≤ Segment.closestDistance ⟨⟨0, 0, 0⟩, ⟨5, 0, 0⟩⟩ ⟨⟨0, 3, 1⟩, ⟨5, 3, 1⟩⟩
      ∧ ¬ nearlyEqual
          (Segment.closestDistance ⟨⟨0, 0, 0⟩, ⟨5, 0, 0⟩⟩ ⟨⟨0, 3, 1⟩, ⟨5, 3, 1⟩⟩)
          1 sc_Precision := by
  have h3 : (3 : ℝ) ≤ Real.sqrt 10 := by
    rw [show (3 : ℝ) = Real.sqrt 9 by
      rw [show (9 : ℝ) = 3 * 3 by norm_num, Real.sqrt_mul_self (by norm_num)]]
    exact Real.sqrt_le_sqrt (by norm_num)
  have h4 : Real.sqrt 10 ≤ 4 := by
    rw [show (4 : ℝ) = Real.sqrt 16 by
      rw [show (16 : ℝ) = 4 * 4 by norm_num, Real.sqrt_mul_self (by norm_num)]]
    exact Real.sqrt_le_sqrt (by norm_num)
  rw [closestDistance_parallelOffset_value]
  refine ⟨h3, ?_⟩
  unfold nearlyEqual
  rw [abs_of_nonneg (by linarith), abs_of_nonneg (by linarith),
    abs_of_nonneg (by norm_num : (0 : ℝ) ≤ 1),
    max_eq_left (by linarith)]
  intro hcontra
  have : sc_Precision * Real.sqrt 10 ≤ 1 / 2 ^ 52 * 4 := by
    unfold sc_Precision
    nlinarith
  nlinarith [this]

/-- C4 amended: on the parallel offset segments (0,0,0)-(5,0,0) and
(0,3,1)-(5,3,1), `closestDistance` returns exactly √10 (the magnitude of the
perpendicular offset (0,3,1)), not approximately 1.0. -/
theorem closestDistance_parallelOffset_sqrt_ten :
    Segment.closestDistance ⟨⟨0, 0, 0⟩, ⟨5, 0, 0⟩⟩ ⟨⟨0, 3, 1⟩, ⟨5, 3, 1⟩⟩
      = Real.sqrt 10 :=
  closestDistance_parallelOffset_value

/-- C2: with all eight input coordinates finite but the SECOND segment
zero-length (start == end), `closestDistance` does NOT return a finite
scalar: `e = f = 0` forces the parallel branch, whose division
`t = f/e = 0/0` is NaN; the NaN survives `std::clamp` (all comparisons with
NaN are false) and propagates through `start2 + d2·t` into the returned
distance.  The same happens when both segments are zero-length. -/
theorem closestDistanceFP_degenerate_nan :
    SegmentFP.closestDistance
        ⟨⟨FP.fin 0, FP.fin 0, FP.fin 0⟩, ⟨FP.fin 1, FP.fin 0, FP.fin 0⟩⟩
        ⟨⟨FP.fin 2, FP.fin 3, FP.fin 4⟩, ⟨FP.fin 2, FP.fin 3, FP.fin 4⟩⟩
      = FPD.nan
    ∧ SegmentFP.closestDistance
        ⟨⟨FP.fin 1, FP.fin 1, FP.fin 1⟩, ⟨FP.fin 1, FP.fin 1, FP.fin 1⟩⟩
        ⟨⟨FP.fin 2, FP.fin 2, FP.fin 2⟩, ⟨FP.fin 2, FP.fin 2, FP.fin 2⟩⟩
      = FPD.nan := by
  constructor <;>
  · unfold SegmentFP.closestDistance
    dsimp only
    norm_num [PointFP.sub, PointFP.dot, PointFP.add, PointFP.smul, PointFP.distance,
      FP.sub, FP.add, FP.mul, FP.div, FP.lt, FP.fabs, std_clampFP,
      sc_PrecisionFP, sc_PrecisionQ, FP.sqrtD]

end Kantarion.Geometry
